import Mathlib

/-!
Shallow embedding of the oid4vc-core utility library: the Result
container with its runCatching and runAsyncCatching wrappers
(src/lib/utils/result.ts), the error normalizer getErrorMessage and
convertToError (src/lib/utils/errorUtils.ts), and the DynamoDB
key-value wrapper (src/lib/dynamodb/DynamoDB.ts).

JavaScript values are modelled by the inductive type JSVal.  Objects
and arrays are references (heap addresses) into an explicit heap, so
that reference cycles are representable and JSON serialization can be
modelled faithfully, including its cycle-detection fault.  Error
instances carry a numeric identity so that the identity-preservation
contracts (return the same instance, not a copy) are expressible.
Thrown JavaScript values are modelled by the Except monad with a JSVal
as the thrown fault.
-/

/-- JavaScript number as far as this library exercises it: NaN or an
integer.  NaN is the one non-finite value the spec and the code care
about (it serializes to null under JSON.stringify). -/
inductive JSNum where
  | nan
  | int (i : Int)
deriving DecidableEq

/-- JavaScript runtime value.  obj and arr are references into a Heap;
err models an Error instance with an identity id and a message field. -/
inductive JSVal where
  | undef
  | null
  | bool (b : Bool)
  | num (n : JSNum)
  | str (s : String)
  | err (id : Nat) (message : String)
  | obj (addr : Nat)
  | arr (addr : Nat)
deriving DecidableEq

/-- JavaScript truthiness: undefined, null, false, 0, NaN and the empty
string are falsy; every other value, in particular every object, array
and Error instance, is truthy. -/
def truthy : JSVal → Bool
  | .undef => false
  | .null => false
  | .bool b => b
  | .num .nan => false
  | .num (.int i) => i != 0
  | .str s => s != ""
  | .err _ _ => true
  | .obj _ => true
  | .arr _ => true

/-- Heap node: the contents of a JavaScript object (ordered own
enumerable string-keyed fields, insertion order) or array. -/
inductive HeapNode where
  | objectNode (fields : List (String × JSVal))
  | arrayNode (elems : List JSVal)
deriving DecidableEq

/-- Heap mapping addresses to object or array contents. -/
abbrev Heap := List (Nat × HeapNode)

/-- Address lookup in a heap, first match wins. -/
def lookupHeap : Heap → Nat → Option HeapNode
  | [], _ => none
  | (a, node) :: rest, k => if a = k then some node else lookupHeap rest k

/-- Lower-case hexadecimal digit, for JSON string escapes. -/
def hexDigit (n : Nat) : String :=
  if n < 10 then toString n
  else if n = 10 then "a"
  else if n = 11 then "b"
  else if n = 12 then "c"
  else if n = 13 then "d"
  else if n = 14 then "e"
  else "f"

/-- JSON escaping of a single character, following JSON.stringify:
quote and backslash are escaped, the common control characters use
their short escapes, other control characters use a unicode escape. -/
def jsonEscapeChar (c : Char) : String :=
  if c.toNat = 34 then "\\\""
  else if c.toNat = 92 then "\\\\"
  else if c.toNat = 8 then "\\b"
  else if c.toNat = 9 then "\\t"
  else if c.toNat = 10 then "\\n"
  else if c.toNat = 12 then "\\f"
  else if c.toNat = 13 then "\\r"
  else if c.toNat < 32 then "\\u00" ++ hexDigit (c.toNat / 16) ++ hexDigit (c.toNat % 16)
  else String.singleton c

/-- JSON quoting of a string, following JSON.stringify. -/
def jsonQuote (s : String) : String :=
  "\"" ++ String.join (s.toList.map jsonEscapeChar) ++ "\""

/-- Effectful map over a list in the Except monad, stopping at the
first fault.  Used to model serialization of object fields and array
elements in order. -/
def exceptMapM (f : α → Except ε β) : List α → Except ε (List β)
  | [] => .ok []
  | x :: xs => do
    let y ← f x
    let ys ← exceptMapM f xs
    pure (y :: ys)

/-- The TypeError raised by JSON.stringify when it meets a reference
cycle (the SerializationFault of the spec). -/
def serializationFault : JSVal := .err 0 "Converting circular structure to JSON"

/-- JSON.stringify over the heap model.  Returns none when the host
serializer returns undefined (top-level undefined), some s otherwise,
and throws serializationFault on a reference cycle, detected exactly as
the host does: an object or array already on the active serialization
stack.  The fuel argument dominates the recursion depth; the stack can
only hold distinct heap addresses, so heap length + 1 fuel is always
enough and the fuel-0 branch is unreachable from stringify below.
Object fields whose value serializes to undefined are dropped; array
elements that serialize to undefined render as null; an Error instance
has no own enumerable properties and serializes to an empty object. -/
def stringifyFuel (h : Heap) : Nat → List Nat → JSVal → Except JSVal (Option String)
  | 0, _, _ => .ok none
  | fuel + 1, stack, v =>
    match v with
    | .undef => .ok none
    | .null => .ok (some "null")
    | .bool b => .ok (some (if b then "true" else "false"))
    | .num .nan => .ok (some "null")
    | .num (.int i) => .ok (some (toString i))
    | .str s => .ok (some (jsonQuote s))
    | .err _ _ => .ok (some "\x7b\x7d")
    | .obj a =>
      if a ∈ stack then .error serializationFault
      else
        match lookupHeap h a with
        | some (.objectNode fields) => do
          let parts ← exceptMapM (fun kv =>
            (stringifyFuel h fuel (a :: stack) kv.2).map
              (fun o => o.map (fun s => jsonQuote kv.1 ++ ":" ++ s))) fields
          pure (some ("\x7b" ++ String.intercalate "," (parts.filterMap id) ++ "\x7d"))
        | _ => .ok (some "null")
    | .arr a =>
      if a ∈ stack then .error serializationFault
      else
        match lookupHeap h a with
        | some (.arrayNode elems) => do
          let parts ← exceptMapM (fun e =>
            (stringifyFuel h fuel (a :: stack) e).map (fun o => o.getD "null")) elems
          pure (some ("[" ++ String.intercalate "," parts ++ "]"))
        | _ => .ok (some "null")

/-- JSON.stringify: run the fuelled serializer with enough fuel for the
whole heap and an empty active stack. -/
def stringify (h : Heap) (v : JSVal) : Except JSVal (Option String) :=
  stringifyFuel h (h.length + 1) [] v

/-- getErrorMessage from src/lib/utils/errorUtils.ts: undefined and
null map to their literal names, a string is returned unchanged, an
Error instance yields its message field, and every other value is
serialized with JSON.stringify.  The serializer returns undefined for
none of the values reaching the final branch (booleans, numbers,
objects, arrays), so the getD branch is dead; a serialization fault
propagates. -/
def getErrorMessage (h : Heap) (e : JSVal) : Except JSVal String :=
  match e with
  | .undef => .ok "undefined"
  | .null => .ok "null"
  | .str s => .ok s
  | .err _ m => .ok m
  | other => do
    let o ← stringify h other
    pure (o.getD "undefined")

/-- The instanceof Error test of the source. -/
def isErrorLike : JSVal → Bool
  | .err _ _ => true
  | _ => false

/-- convertToError from src/lib/utils/errorUtils.ts: an Error instance
is returned as-is (the same instance, identity preserved); any other
value becomes a new Error whose message is getErrorMessage of it.  The
fresh argument models the identity the host allocator hands to the new
Error instance. -/
def convertToError (h : Heap) (fresh : Nat) (e : JSVal) : Except JSVal JSVal :=
  if isErrorLike e then .ok e
  else do
    let m ← getErrorMessage h e
    pure (.err fresh m)

/-- The Error thrown by the Result constructor when its exclusivity
check fires (the MisuseFault of the spec). -/
def misuseFault : JSVal := .err 1 "Result cannot be both success and failure"

/-- Result from src/lib/utils/result.ts: a container with a value
field and an error field, each possibly undefined. -/
structure Result where
  value : JSVal
  error : JSVal
deriving DecidableEq

/-- The Result constructor: it throws misuseFault when value and error
are both truthy (the source tests the plain conjunction value and
error), and otherwise stores both fields as given. -/
def Result.construct (value error : JSVal) : Except JSVal Result :=
  if truthy value && truthy error then .error misuseFault
  else .ok ⟨value, error⟩

/-- Result.success: new Result(value, undefined). -/
def Result.success (value : JSVal) : Result := ⟨value, .undef⟩

/-- Result.failure: new Result(undefined, error). -/
def Result.failure (error : JSVal) : Result := ⟨.undef, error⟩

/-- Result.isSuccess: the source compares the error field to undefined
with strict equality. -/
def Result.isSuccess (r : Result) : Bool := decide (r.error = JSVal.undef)

/-- Result.isFailure: negation of isSuccess. -/
def Result.isFailure (r : Result) : Bool := !r.isSuccess

/-- Result.getOrThrow: return the value on success, throw the held
error (the same instance) on failure. -/
def Result.getOrThrow (r : Result) : Except JSVal JSVal :=
  if r.isSuccess then .ok r.value else .error r.error

/-- Result.getOrDefault: return the value on success, the supplied
default on failure.  Total, no callback involved. -/
def Result.getOrDefault (defaultValue : JSVal) (r : Result) : JSVal :=
  if r.isSuccess then r.value else defaultValue

/-- Result.getOrElse: return the value on success, otherwise invoke
the transfer callback on the held error directly (not through
runCatching), so a fault from the callback propagates. -/
def Result.getOrElse (transfer : JSVal → Except JSVal JSVal) (r : Result) :
    Except JSVal JSVal :=
  if r.isSuccess then .ok r.value else transfer r.error

/-- Result.onSuccess: invoke the side-effect callback on the value if
success (its fault, if any, propagates), then return the same
instance. -/
def Result.onSuccess (f : JSVal → Except JSVal Unit) (r : Result) :
    Except JSVal Result :=
  if r.isSuccess then
    match f r.value with
    | .ok _ => .ok r
    | .error e => .error e
  else .ok r

/-- Result.onFailure: invoke the side-effect callback on the error if
failure (its fault, if any, propagates), then return the same
instance. -/
def Result.onFailure (f : JSVal → Except JSVal Unit) (r : Result) :
    Except JSVal Result :=
  if r.isFailure then
    match f r.error with
    | .ok _ => .ok r
    | .error e => .error e
  else .ok r

/-- Outcome of a user callback when it completes normally: either a
plain value or a Result instance (the instanceof Result test of
runCatching distinguishes the two). -/
inductive CallbackValue where
  | plain (v : JSVal)
  | res (r : Result)
deriving DecidableEq

/-- runCatching from src/lib/utils/result.ts.  The argument models the
outcome of invoking the wrapped function on its arguments: a normal
completion with a plain value or a Result, or a thrown fault.  A
returned Result is passed through unchanged (flattening); a plain
value is wrapped in success; a thrown fault is normalized with
convertToError and wrapped in failure, and a fault raised by
convertToError itself (serialization of a cyclic thrown value) escapes
because the catch block has no further protection. -/
def runCatching (h : Heap) (fresh : Nat) (f : Except JSVal CallbackValue) :
    Except JSVal Result :=
  match f with
  | .ok (.res r) => .ok r
  | .ok (.plain v) => .ok (Result.success v)
  | .error e =>
    match convertToError h fresh e with
    | .ok err2 => .ok (Result.failure err2)
    | .error e2 => .error e2

/-- runAsyncCatching from src/lib/utils/result.ts: the body is the
awaited analogue of runCatching, with the wrapped outcome standing for
the settled state of the promise returned by the callback (resolution
or rejection). -/
def runAsyncCatching (h : Heap) (fresh : Nat) (f : Except JSVal CallbackValue) :
    Except JSVal Result :=
  match f with
  | .ok (.res r) => .ok r
  | .ok (.plain v) => .ok (Result.success v)
  | .error e =>
    match convertToError h fresh e with
    | .ok err2 => .ok (Result.failure err2)
    | .error e2 => .error e2

/-- Result.recover: on failure, run the transform on the held error
through runCatching; on success, return the same instance. -/
def Result.recover (h : Heap) (fresh : Nat)
    (transform : JSVal → Except JSVal CallbackValue) (r : Result) :
    Except JSVal Result :=
  if r.isFailure then runCatching h fresh (transform r.error) else .ok r

/-- Result.recoverAsync: on failure, run the async transform on the
held error through runAsyncCatching; on success, return the same
instance. -/
def Result.recoverAsync (h : Heap) (fresh : Nat)
    (transform : JSVal → Except JSVal CallbackValue) (r : Result) :
    Except JSVal Result :=
  if r.isFailure then runAsyncCatching h fresh (transform r.error) else .ok r

/-- Item shape stored by the DynamoDB wrapper. -/
structure DynamoDBItem where
  key : String
  value : String
  expiresAt : Option Int
deriving DecidableEq

/-- State of the backing table, newest item first; retrieval takes the
first item with the requested key, so prepending models overwrite by
key. -/
abbrev Table := List DynamoDBItem

/-- Retrieval by key from the table state (the GetCommand round-trip):
the stored item for the key, if any. -/
def tableLookup : Table → String → Option DynamoDBItem
  | [], _ => none
  | it :: rest, k => if it.key = k then some it else tableLookup rest k

/-- DynamoDB.get from src/lib/dynamodb/DynamoDB.ts: fetch the item for
the key and return item.value if the optional chain item?.value is
truthy, null otherwise, so both a missing item and a stored empty
string yield null. -/
def DynamoDB.get (table : Table) (key : String) : Option String :=
  match tableLookup table key with
  | none => none
  | some item => if truthy (.str item.value) then some item.value else none

/-- DynamoDB.put from src/lib/dynamodb/DynamoDB.ts: build the item,
adding expiresAt = floor(now / 1000) + ttl only when the optional
expirationTtl option is truthy (present and nonzero), and store it
under its key.  now is the millisecond clock reading Date.now(). -/
def DynamoDB.put (table : Table) (now : Int) (key value : String)
    (expirationTtl : Option Int) : Table :=
  let item : DynamoDBItem :=
    { key := key
      value := value
      expiresAt :=
        match expirationTtl with
        | some t => if t != 0 then some (Int.fdiv now 1000 + t) else none
        | none => none }
  item :: table

/-- Heap with a single object that holds a reference back to itself. -/
def cycHeap : Heap := [(0, .objectNode [("self", .obj 0)])]

/-- Heap with a single array that holds a reference back to itself. -/
def arrCycHeap : Heap := [(1, .arrayNode [.arr 1])]

/-- Heap for the object example of the spec. -/
def exHeapObj : Heap := [(0, .objectNode [("a", .num (.int 1))])]

/-- Heap for the array example of the spec. -/
def exHeapArr : Heap := [(0, .arrayNode [.num (.int 1), .num (.int 2), .num (.int 3)])]

/-- Heap for the key insertion-order example. -/
def exHeapOrd : Heap := [(0, .objectNode [("b", .num (.int 2)), ("a", .num (.int 1))])]

theorem except_map_error {g : α → β} {x : Except ε α} {e : ε}
    (h : x.map g = .error e) : x = .error e := by
  cases x with
  | ok a => simp [Except.map] at h
  | error e2 => simpa [Except.map] using h

theorem except_bind_error {x : Except ε α} {f : α → Except ε β} {e : ε}
    (h : x >>= f = .error e) : x = .error e ∨ ∃ a, x = .ok a ∧ f a = .error e := by
  cases x with
  | error e2 => left; simpa [Bind.bind, Except.bind] using h
  | ok a => right; exact ⟨a, rfl, by simpa [Bind.bind, Except.bind] using h⟩

theorem exceptMapM_error_mem {f : α → Except ε β} {l : List α} {e : ε}
    (h : exceptMapM f l = .error e) : ∃ x ∈ l, f x = .error e := by
  induction l with
  | nil => simp [exceptMapM] at h
  | cons x xs ih =>
    rw [exceptMapM] at h
    rcases except_bind_error h with h1 | ⟨y, _, h2⟩
    · exact ⟨x, List.mem_cons_self x xs, h1⟩
    · rcases except_bind_error h2 with h3 | ⟨ys, _, h4⟩
      · rcases ih h3 with ⟨z, hz, hfz⟩
        exact ⟨z, List.mem_cons_of_mem x hz, hfz⟩
      · simp [pure, Except.pure] at h4

theorem exceptMapM_error_of_mem {f : α → Except ε β} {l : List α} {c : ε}
    (hall : ∀ x e, f x = .error e → e = c) {x : α} (hx : x ∈ l)
    (hfx : f x = .error c) : exceptMapM f l = .error c := by
  induction l with
  | nil => cases hx
  | cons y ys ih =>
    rw [exceptMapM]
    cases hy : f y with
    | error e2 =>
      have hec : e2 = c := hall y e2 hy
      subst hec
      simp [hy, Bind.bind, Except.bind]
    | ok b =>
      rcases List.mem_cons.mp hx with rfl | hx2
      · rw [hy] at hfx; simp at hfx
      · have h2 := ih hx2
        simp [hy, h2, Bind.bind, Except.bind]

theorem stringifyFuel_error (h : Heap) :
    ∀ fuel stack v e, stringifyFuel h fuel stack v = .error e → e = serializationFault := by
  intro fuel
  induction fuel with
  | zero => intro stack v e he; simp [stringifyFuel] at he
  | succ n ih =>
    intro stack v e he
    cases v with
    | undef => simp [stringifyFuel] at he
    | null => simp [stringifyFuel] at he
    | bool b => simp [stringifyFuel] at he
    | num m => cases m <;> simp [stringifyFuel] at he
    | str s => simp [stringifyFuel] at he
    | err i m => simp [stringifyFuel] at he
    | obj a =>
      rw [stringifyFuel] at he
      by_cases hmem : a ∈ stack
      · rw [if_pos hmem] at he
        simp at he
        exact he.symm
      · rw [if_neg hmem] at he
        cases hl : lookupHeap h a with
        | none => rw [hl] at he; simp at he
        | some node =>
          rw [hl] at he
          cases node with
          | objectNode fields =>
            simp only [] at he
            rcases except_bind_error he with h1 | ⟨parts, _, h2⟩
            · rcases exceptMapM_error_mem h1 with ⟨kv, _, hkv⟩
              exact ih _ _ _ (except_map_error hkv)
            · simp [pure, Except.pure] at h2
          | arrayNode elems => simp at he
    | arr a =>
      rw [stringifyFuel] at he
      by_cases hmem : a ∈ stack
      · rw [if_pos hmem] at he
        simp at he
        exact he.symm
      · rw [if_neg hmem] at he
        cases hl : lookupHeap h a with
        | none => rw [hl] at he; simp at he
        | some node =>
          cases node with
          | objectNode fields => rw [hl] at he; simp at he
          | arrayNode elems =>
            rw [hl] at he
            simp only [] at he
            rcases except_bind_error he with h1 | ⟨parts, _, h2⟩
            · rcases exceptMapM_error_mem h1 with ⟨x, _, hx⟩
              exact ih _ _ _ (except_map_error hx)
            · simp [pure, Except.pure] at h2

theorem stringify_error {h : Heap} {v e : JSVal}
    (he : stringify h v = .error e) : e = serializationFault :=
  stringifyFuel_error h _ _ _ _ he

theorem getErrorMessage_stringify (h : Heap) (v : JSVal)
    (hv : isErrorLike v = false) (hu : v ≠ .undef) (hn : v ≠ .null)
    (hs : ∀ s, v ≠ .str s) :
    getErrorMessage h v = stringify h v >>= (fun o => pure (o.getD "undefined")) := by
  cases v with
  | undef => exact absurd rfl hu
  | null => exact absurd rfl hn
  | str s => exact absurd rfl (hs s)
  | err i m => simp [isErrorLike] at hv
  | bool b => rfl
  | num m => rfl
  | obj a => rfl
  | arr a => rfl

theorem getErrorMessage_error {h : Heap} {v e : JSVal}
    (he : getErrorMessage h v = .error e) : e = serializationFault := by
  cases v with
  | undef => simp [getErrorMessage] at he
  | null => simp [getErrorMessage] at he
  | str s => simp [getErrorMessage] at he
  | err i m => simp [getErrorMessage] at he
  | bool b =>
    rw [getErrorMessage_stringify h _ (by simp [ isErrorLike]) (by simp) (by simp) (by simp)] at he
    rcases except_bind_error he with h1 | ⟨o, _, h2⟩
    · exact stringify_error h1
    · simp [pure, Except.pure] at h2
  | num m =>
    rw [getErrorMessage_stringify h _ (by simp [ isErrorLike]) (by simp) (by simp) (by simp)] at he
    rcases except_bind_error he with h1 | ⟨o, _, h2⟩
    · exact stringify_error h1
    · simp [pure, Except.pure] at h2
  | obj a =>
    rw [getErrorMessage_stringify h _ (by simp [ isErrorLike]) (by simp) (by simp) (by simp)] at he
    rcases except_bind_error he with h1 | ⟨o, _, h2⟩
    · exact stringify_error h1
    · simp [pure, Except.pure] at h2
  | arr a =>
    rw [getErrorMessage_stringify h _ (by simp [ isErrorLike]) (by simp) (by simp) (by simp)] at he
    rcases except_bind_error he with h1 | ⟨o, _, h2⟩
    · exact stringify_error h1
    · simp [pure, Except.pure] at h2

theorem convertToError_error_iff {h : Heap} {fr : Nat} {v e : JSVal} :
    convertToError h fr v = .error e ↔
      (isErrorLike v = false ∧ getErrorMessage h v = .error e) := by
  unfold convertToError
  by_cases hel : isErrorLike v = true
  · simp [hel]
  · have hel2 : isErrorLike v = false := by simpa using hel
    rw [if_neg hel]
    constructor
    · intro hbind
      rcases except_bind_error hbind with h1 | ⟨m, _, h2⟩
      · exact ⟨hel2, h1⟩
      · simp [pure, Except.pure] at h2
    · rintro ⟨-, hgm⟩
      rw [hgm]
      rfl

theorem convertToError_ok_of_message {h : Heap} {fr : Nat} {v : JSVal} {s : String}
    (hel : isErrorLike v = false) (hm : getErrorMessage h v = .ok s) :
    convertToError h fr v = .ok (.err fr s) := by
  unfold convertToError
  rw [if_neg (by simp [hel]), hm]
  rfl

theorem convertToError_error_eq {h : Heap} {fr : Nat} {v e : JSVal}
    (he : convertToError h fr v = .error e) : e = serializationFault :=
  getErrorMessage_error (convertToError_error_iff.mp he).2

theorem runCatching_error {h : Heap} {fr : Nat} {f : Except JSVal CallbackValue}
    {e2 : JSVal} (he : runCatching h fr f = .error e2) : e2 = serializationFault := by
  cases f with
  | ok cv => cases cv <;> simp [runCatching] at he
  | error e =>
    rw [runCatching] at he
    cases hc : convertToError h fr e with
    | ok err2 => rw [hc] at he; simp at he
    | error e3 =>
      rw [hc] at he
      simp at he
      exact he ▸ convertToError_error_eq hc

theorem runAsync_eq_runCatching (h : Heap) (fr : Nat) (f : Except JSVal CallbackValue) :
    runAsyncCatching h fr f = runCatching h fr f := by
  cases f with
  | ok cv => cases cv <;> rfl
  | error e => rfl
theorem stringifyFuel_selfcycle (h : Heap) (a : Nat)
    (fields : List (String × JSVal)) (k : String) (n : Nat) (stack : List Nat)
    (hstack : a ∉ stack) (hl : lookupHeap h a = some (.objectNode fields))
    (hm : (k, JSVal.obj a) ∈ fields) :
    stringifyFuel h (n + 2) stack (.obj a) = .error serializationFault := by
  have hcall : stringifyFuel h (n + 1) (a :: stack) (.obj a) = .error serializationFault := by
    rw [stringifyFuel]
    rw [if_pos (List.mem_cons_self a stack)]
  have hall : ∀ (kv : String × JSVal) (e : JSVal),
      (stringifyFuel h (n + 1) (a :: stack) kv.2).map
        (fun o => o.map (fun s => jsonQuote kv.1 ++ ":" ++ s)) = .error e →
      e = serializationFault := by
    intro kv e hx
    exact stringifyFuel_error h _ _ _ _ (except_map_error hx)
  have hfx : (stringifyFuel h (n + 1) (a :: stack) (k, JSVal.obj a).2).map
      (fun o => o.map (fun s => jsonQuote (k, JSVal.obj a).1 ++ ":" ++ s)) =
      .error serializationFault := by
    rw [hcall]; rfl
  have hmapm := exceptMapM_error_of_mem hall hm hfx
  rw [stringifyFuel, if_neg hstack, hl]
  simp only [hmapm]
  rfl

theorem getErrorMessage_selfcycle (h : Heap) (a : Nat)
    (fields : List (String × JSVal)) (k : String)
    (hl : lookupHeap h a = some (.objectNode fields))
    (hm : (k, JSVal.obj a) ∈ fields) :
    getErrorMessage h (.obj a) = .error serializationFault := by
  have hne : h ≠ [] := by
    intro hnil
    rw [hnil] at hl
    simp [lookupHeap] at hl
  have hstr : stringify h (.obj a) = .error serializationFault := by
    cases h with
    | nil => exact absurd rfl hne
    | cons p t =>
      exact stringifyFuel_selfcycle (p :: t) a fields k t.length [] (by simp) hl hm
  rw [getErrorMessage_stringify h _ (by simp [ isErrorLike]) (by simp) (by simp) (by simp)]
  rw [hstr]
  rfl

/-- Claim C1 counterexample: constructing a Result with the value 0
(defined, hence populated, but falsy) together with a populated error
raises no fault and yields an instance carrying both a value and an
error, because the source checks truthiness of the conjunction, not
definedness. -/
theorem c1_counterexample :
    Result.construct (.num (.int 0)) (.err 3 "boom") =
      .ok ⟨.num (.int 0), .err 3 "boom"⟩ ∧
    JSVal.num (.int 0) ≠ JSVal.undef ∧ JSVal.err 3 "boom" ≠ JSVal.undef :=
  ⟨rfl, by decide, by decide⟩

/-- Claim C1 (amended): the Result constructor raises the misuse fault
exactly when the value and the error are both truthy; success and
failure always construct without a fault; and every Result instance
satisfies exactly one of isSuccess and isFailure. -/
theorem c1_construct_exclusivity :
    (∀ v e, Result.construct v e = .error misuseFault ↔
      (truthy v = true ∧ truthy e = true)) ∧
    (∀ v, Result.construct v .undef = .ok (Result.success v)) ∧
    (∀ e, Result.construct .undef e = .ok (Result.failure e)) ∧
    (∀ r : Result, (r.isSuccess && r.isFailure) = false ∧
      (r.isSuccess || r.isFailure) = true) := by
  refine ⟨?_, ?_, ?_, ?_⟩
  · intro v e
    unfold Result.construct
    by_cases hv : truthy v = true <;> by_cases he2 : truthy e = true <;>
      simp [hv, he2]
  · intro v
    unfold Result.construct
    simp [truthy, Result.success]
  · intro e
    unfold Result.construct
    simp [truthy, Result.failure]
  · intro r
    unfold Result.isFailure
    cases hr : r.isSuccess <;> simp

/-- Claim C2 counterexample: a callback that throws a self-referential
object makes runCatching itself raise the serialization fault, so a
fault escapes runCatching and no failure Result is returned. -/
theorem c2_counterexample :
    runCatching cycHeap 5 (.error (.obj 0)) = .error serializationFault := rfl

/-- Claim C2 (amended): runCatching returns a Result returned by the
callback unchanged (flattening); wraps a plain value in success; wraps
a thrown fault e in failure(convertToError(e)) whenever convertToError
succeeds on e; and the only fault that can escape runCatching is the
serialization fault raised while normalizing a thrown value whose
serialization meets a reference cycle. -/
theorem c2_runCatching_contract :
    (∀ h fr (r : Result), runCatching h fr (.ok (.res r)) = .ok r) ∧
    (∀ h fr v, runCatching h fr (.ok (.plain v)) = .ok (Result.success v)) ∧
    (∀ h fr e err2, convertToError h fr e = .ok err2 →
      runCatching h fr (.error e) = .ok (Result.failure err2)) ∧
    (∀ h fr f e2, runCatching h fr f = .error e2 → e2 = serializationFault) := by
  refine ⟨fun _ _ _ => rfl, fun _ _ _ => rfl, ?_, ?_⟩
  · intro h fr e err2 hc
    rw [runCatching, hc]
  · intro h fr f e2 he
    exact runCatching_error he

/-- Claim C2 witness: a thrown plain string is wrapped in a failure
holding the normalized error, and the fault escaping on a cyclic
thrown value is the serialization fault. -/
theorem c2_witness :
    runCatching [] 0 (.error (.str "boom")) =
      .ok (Result.failure (.err 0 "boom")) ∧
    serializationFault = serializationFault :=
  ⟨c2_runCatching_contract.2.2.1 [] 0 (.str "boom") (.err 0 "boom") rfl,
   c2_runCatching_contract.2.2.2 cycHeap 5 (.error (.obj 0)) serializationFault rfl⟩

/-- Claim C3 counterexample: getOrElse on a failure invokes its
callback directly, so a throwing callback raises a fault to the caller
from an operation other than getOrThrow. -/
theorem c3_counterexample :
    Result.getOrElse (fun _ => .error (.str "boom"))
      (Result.failure (.err 2 "orig")) = .error (.str "boom") := rfl

/-- Claim C3 (amended): getOrElse, onSuccess and onFailure raise
exactly the fault raised by their user-supplied callback on the
variant that invokes it; runCatching, runAsyncCatching, recover and
recoverAsync capture every callback fault except the serialization
fault raised while normalizing an unserializable thrown value, which
is the only fault they can raise; getOrThrow raises exactly on a
failure, raising the held error; isSuccess, isFailure and getOrDefault
are pure and never raise. -/
theorem c3_fault_paths :
    (∀ f r e2, Result.getOrElse f r = .error e2 ↔
      (r.isFailure = true ∧ f r.error = .error e2)) ∧
    (∀ f r e2, Result.onSuccess f r = .error e2 ↔
      (r.isSuccess = true ∧ f r.value = .error e2)) ∧
    (∀ f r e2, Result.onFailure f r = .error e2 ↔
      (r.isFailure = true ∧ f r.error = .error e2)) ∧
    (∀ h fr f e2, runCatching h fr f = .error e2 → e2 = serializationFault) ∧
    (∀ h fr f e2, runAsyncCatching h fr f = .error e2 → e2 = serializationFault) ∧
    (∀ h fr t r e2, Result.recover h fr t r = .error e2 →
      e2 = serializationFault) ∧
    (∀ h fr t r e2, Result.recoverAsync h fr t r = .error e2 →
      e2 = serializationFault) ∧
    (∀ r e2, Result.getOrThrow r = .error e2 ↔
      (r.isFailure = true ∧ e2 = r.error)) := by
  refine ⟨?_, ?_, ?_, ?_, ?_, ?_, ?_, ?_⟩
  · intro f r e2
    unfold Result.getOrElse Result.isFailure
    cases hs : r.isSuccess <;> simp
  · intro f r e2
    unfold Result.onSuccess
    cases hs : r.isSuccess <;> cases hf : f r.value <;> simp [hf]
  · intro f r e2
    unfold Result.onFailure
    cases hfl : r.isFailure <;> cases hf : f r.error <;> simp [hf]
  · intro h fr f e2 he
    exact runCatching_error he
  · intro h fr f e2 he
    rw [runAsync_eq_runCatching] at he
    exact runCatching_error he
  · intro h fr t r e2 he
    unfold Result.recover at he
    cases hfl : r.isFailure <;> rw [hfl] at he
    · simp at he
    · simp only [if_true] at he
      exact runCatching_error he
  · intro h fr t r e2 he
    unfold Result.recoverAsync at he
    cases hfl : r.isFailure <;> rw [hfl] at he
    · simp at he
    · simp only [if_true] at he
      rw [runAsync_eq_runCatching] at he
      exact runCatching_error he
  · intro r e2
    unfold Result.getOrThrow Result.isFailure
    cases hs : r.isSuccess <;> simp [eq_comm]

/-- Claim C3 witness: the wrapper raises only the serialization fault,
and getOrThrow on a failure raises the held error. -/
theorem c3_witness :
    serializationFault = serializationFault ∧
    Result.getOrThrow (Result.failure (.err 2 "orig")) =
      .error (.err 2 "orig") :=
  ⟨c3_fault_paths.2.2.2.1 cycHeap 7 (.error (.obj 0)) serializationFault rfl,
   (c3_fault_paths.2.2.2.2.2.2.2 (Result.failure (.err 2 "orig"))
      (.err 2 "orig")).mpr ⟨rfl, rfl⟩⟩

/-- Claim C4 counterexample: a rejection carrying a self-referential
array makes runAsyncCatching itself reject with the serialization
fault instead of resolving to a failure Result. -/
theorem c4_counterexample :
    runAsyncCatching arrCycHeap 9 (.error (.arr 1)) =
      .error serializationFault := rfl

/-- Claim C4 (amended): runAsyncCatching resolves a returned Result
unchanged and wraps a plain resolution in success; a rejection with an
Error instance resolves to a failure holding that instance (so its
message is preserved), and more generally a rejection with fault e
resolves to failure(convertToError(e)) whenever convertToError
succeeds on e; the only fault it can raise is the serialization fault
met while normalizing an unserializable rejection value. -/
theorem c4_runAsyncCatching_contract :
    (∀ h fr (r : Result), runAsyncCatching h fr (.ok (.res r)) = .ok r) ∧
    (∀ h fr v, runAsyncCatching h fr (.ok (.plain v)) =
      .ok (Result.success v)) ∧
    (∀ h fr i m, runAsyncCatching h fr (.error (.err i m)) =
      .ok (Result.failure (.err i m))) ∧
    (∀ h fr e err2, convertToError h fr e = .ok err2 →
      runAsyncCatching h fr (.error e) = .ok (Result.failure err2)) ∧
    (∀ h fr f e2, runAsyncCatching h fr f = .error e2 →
      e2 = serializationFault) := by
  refine ⟨fun _ _ _ => rfl, fun _ _ _ => rfl, fun _ _ _ _ => rfl, ?_, ?_⟩
  · intro h fr e err2 hc
    rw [runAsyncCatching, hc]
  · intro h fr f e2 he
    rw [runAsync_eq_runCatching] at he
    exact runCatching_error he

/-- Claim C4 witness: a rejection with the number 404 resolves to a
failure holding a new error with message 404, and the fault escaping
on a cyclic rejection value is the serialization fault. -/
theorem c4_witness :
    runAsyncCatching [] 3 (.error (.num (.int 404))) =
      .ok (Result.failure (.err 3 "404")) ∧
    serializationFault = serializationFault :=
  ⟨c4_runAsyncCatching_contract.2.2.2.1 [] 3 (.num (.int 404))
      (.err 3 "404") rfl,
   c4_runAsyncCatching_contract.2.2.2.2 arrCycHeap 9 (.error (.arr 1))
      serializationFault rfl⟩

/-- Claim C5 counterexample: a transform that throws a self-referential
object makes recover raise the serialization fault rather than return
a failure Result. -/
theorem c5_counterexample :
    Result.recover cycHeap 5 (fun _ => .error (.obj 0))
      (Result.failure (.err 2 "e")) = .error serializationFault := rfl

/-- Claim C5 (amended): recover on a success returns the same instance
for every transform (the transform is never consulted); on a failure
it runs the transform on the held error through runCatching, so a
transform that throws yields a failure wrapping the new normalized
error whenever normalization of the thrown value succeeds, and the
only fault recover can raise is the serialization fault met while
normalizing an unserializable thrown value. -/
theorem c5_recover_contract :
    (∀ h fr t r, r.isSuccess = true → Result.recover h fr t r = .ok r) ∧
    (∀ h fr t r, r.isFailure = true →
      Result.recover h fr t r = runCatching h fr (t r.error)) ∧
    (∀ h fr t r e err2, r.isFailure = true → t r.error = .error e →
      convertToError h fr e = .ok err2 →
      Result.recover h fr t r = .ok (Result.failure err2)) ∧
    (∀ h fr t r e2, Result.recover h fr t r = .error e2 →
      e2 = serializationFault) := by
  refine ⟨?_, ?_, ?_, ?_⟩
  · intro h fr t r hs
    unfold Result.recover Result.isFailure
    rw [hs]
    simp
  · intro h fr t r hfl
    unfold Result.recover
    rw [hfl]
    simp
  · intro h fr t r e err2 hfl ht hc
    unfold Result.recover
    rw [hfl]
    simp only [if_true]
    rw [ht, runCatching, hc]
  · intro h fr t r e2 he
    unfold Result.recover at he
    cases hfl : r.isFailure <;> rw [hfl] at he
    · simp at he
    · simp only [if_true] at he
      exact runCatching_error he

/-- Claim C5 witness: recover on a success returns the same instance
under a throwing transform, and recover on a failure with a transform
throwing a plain string returns a failure wrapping the normalized
error. -/
theorem c5_witness :
    Result.recover [] 0 (fun _ => .error (.str "t"))
      (Result.success (.num (.int 42))) =
      .ok (Result.success (.num (.int 42))) ∧
    Result.recover [] 4 (fun _ => .error (.str "boom2"))
      (Result.failure (.err 2 "orig")) =
      .ok (Result.failure (.err 4 "boom2")) :=
  ⟨c5_recover_contract.1 [] 0 (fun _ => .error (.str "t"))
      (Result.success (.num (.int 42))) rfl,
   c5_recover_contract.2.2.1 [] 4 (fun _ => .error (.str "boom2"))
      (Result.failure (.err 2 "orig")) (.str "boom2") (.err 4 "boom2")
      rfl rfl rfl⟩

/-- Claim C6: getOrThrow on success(v) returns v for every value v,
and getOrThrow on failure(e) raises exactly the error instance e, with
its identity preserved, for every Error instance e. -/
theorem c6_getOrThrow :
    (∀ v, Result.getOrThrow (Result.success v) = .ok v) ∧
    (∀ i m, Result.getOrThrow (Result.failure (.err i m)) =
      .error (.err i m)) :=
  ⟨fun _ => rfl, fun _ _ => rfl⟩

/-- Claim C7: getErrorMessage maps undefined to the literal string
undefined, null to null, a string to itself, an Error instance to its
message field, NaN to null, and other values to their deep structural
JSON serialization with object keys in insertion order, as in the
object, array and key-order examples. -/
theorem c7_getErrorMessage :
    (∀ h, getErrorMessage h .undef = .ok "undefined") ∧
    (∀ h, getErrorMessage h .null = .ok "null") ∧
    (∀ h s, getErrorMessage h (.str s) = .ok s) ∧
    (∀ h i m, getErrorMessage h (.err i m) = .ok m) ∧
    (∀ h, getErrorMessage h (.num .nan) = .ok "null") ∧
    (∀ h b, getErrorMessage h (.bool b) =
      .ok (if b then "true" else "false")) ∧
    (∀ h i, getErrorMessage h (.num (.int i)) = .ok (toString i)) ∧
    getErrorMessage exHeapObj (.obj 0) = .ok "\x7b\"a\":1\x7d" ∧
    getErrorMessage exHeapArr (.arr 0) = .ok "[1,2,3]" ∧
    getErrorMessage exHeapOrd (.obj 0) = .ok "\x7b\"b\":2,\"a\":1\x7d" :=
  ⟨fun _ => rfl, fun _ => rfl, fun _ _ => rfl, fun _ _ _ => rfl,
   fun _ => rfl, fun _ _ => rfl, fun _ _ => rfl, rfl, rfl, rfl⟩

/-- Claim C8: getErrorMessage on an object holding a reference back to
itself raises the serialization fault, which propagates as a raised
fault; every fault getErrorMessage raises is the serialization fault;
and convertToError raises exactly when the input is not an Error
instance and getErrorMessage raises, so it has no failure path of its
own. -/
theorem c8_serialization_fault :
    (∀ h a fields k, lookupHeap h a = some (.objectNode fields) →
      (k, JSVal.obj a) ∈ fields →
      getErrorMessage h (.obj a) = .error serializationFault) ∧
    (∀ h v e, getErrorMessage h v = .error e → e = serializationFault) ∧
    (∀ h fr v e, convertToError h fr v = .error e ↔
      (isErrorLike v = false ∧ getErrorMessage h v = .error e)) := by
  refine ⟨?_, ?_, ?_⟩
  · intro h a fields k hl hm
    exact getErrorMessage_selfcycle h a fields k hl hm
  · intro h v e he
    exact getErrorMessage_error he
  · intro h fr v e
    exact convertToError_error_iff

/-- Claim C8 witness: on the concrete self-referential heap object the
normalizer raises the serialization fault, both directly and through
convertToError. -/
theorem c8_witness :
    getErrorMessage cycHeap (.obj 0) = .error serializationFault ∧
    serializationFault = serializationFault ∧
    convertToError cycHeap 6 (.obj 0) = .error serializationFault :=
  ⟨c8_serialization_fault.1 cycHeap 0 [("self", .obj 0)] "self" rfl
      (by simp),
   c8_serialization_fault.2.1 cycHeap (.obj 0) serializationFault rfl,
   (c8_serialization_fault.2.2 cycHeap 6 (.obj 0)
      serializationFault).mpr ⟨rfl, rfl⟩⟩

/-- Claim C9: convertToError returns an Error instance unchanged, with
its identity preserved; on any other value it returns a new Error
whose message is getErrorMessage of the value, as in the numeric 404
example. -/
theorem c9_convertToError :
    (∀ h fr i m, convertToError h fr (.err i m) = .ok (.err i m)) ∧
    (∀ h fr v s, isErrorLike v = false → getErrorMessage h v = .ok s →
      convertToError h fr v = .ok (.err fr s)) ∧
    (∀ fr, convertToError [] fr (.num (.int 404)) =
      .ok (.err fr "404")) := by
  refine ⟨fun _ _ _ _ => rfl, ?_, fun _ => rfl⟩
  intro h fr v s hel hm
  exact convertToError_ok_of_message hel hm

/-- Claim C9 witness: a boolean input yields a new error carrying its
serialized message. -/
theorem c9_witness :
    convertToError [] 7 (.bool true) = .ok (.err 7 "true") :=
  c9_convertToError.2.1 [] 7 (.bool true) "true" rfl rfl

/-- Claim C10: DynamoDB.get resolves to null when no item exists for
the key and also when the stored value is the empty string, because
the result comes from a truthiness test on the stored value; get never
resolves to the empty string, even right after put stored one. -/
theorem c10_get_truthiness :
    (∀ table key, tableLookup table key = none →
      DynamoDB.get table key = none) ∧
    (∀ table key item, tableLookup table key = some item →
      item.value = "" → DynamoDB.get table key = none) ∧
    (∀ table key, DynamoDB.get table key ≠ some "") ∧
    (∀ table now key ttl,
      DynamoDB.get (DynamoDB.put table now key "" ttl) key = none) := by
  refine ⟨?_, ?_, ?_, ?_⟩
  · intro table key hl
    unfold DynamoDB.get
    rw [hl]
  · intro table key item hl hv
    unfold DynamoDB.get
    rw [hl]
    simp [truthy, hv]
  · intro table key hcontr
    unfold DynamoDB.get at hcontr
    cases hl : tableLookup table key <;> rw [hl] at hcontr
    · simp at hcontr
    · rename_i item
      by_cases hv : truthy (.str item.value) = true
      · simp [hv] at hcontr
        rw [hcontr] at hv
        simp [truthy] at hv
      · simp [hv] at hcontr
  · intro table now key ttl
    show DynamoDB.get (_ :: table) key = none
    unfold DynamoDB.get
    rw [tableLookup]
    simp [truthy]

/-- Claim C10 witness: concrete table states for each case. -/
theorem c10_witness :
    DynamoDB.get [] "k" = none ∧
    DynamoDB.get [⟨"k", "", none⟩] "k" = none ∧
    DynamoDB.get [⟨"k", "", none⟩] "k" ≠ some "" ∧
    DynamoDB.get (DynamoDB.put [] 1700000000000 "k" "" (some 60)) "k" =
      none :=
  ⟨c10_get_truthiness.1 [] "k" rfl,
   c10_get_truthiness.2.1 [⟨"k", "", none⟩] "k" ⟨"k", "", none⟩ rfl rfl,
   c10_get_truthiness.2.2.1 [⟨"k", "", none⟩] "k",
   c10_get_truthiness.2.2.2 [] 1700000000000 "k" (some 60)⟩
